import Mathlib

/-!
# Verification of the thrall protocol-transport and waiter layer

A shallow embedding, in Lean 4, of the concurrency-relevant core of the
thrall browser-automation library:

* `src/cdp.ts` — the `CDPSession` transport: request-id allocation,
  pending-call correlation, event fan-out, teardown (`close`).
* The `Page` wait primitives (`goto` / `waitForNavigation` event races,
  `waitForSelector` / `waitForFunction` poll loops,
  `waitForResponse` / `waitForRequest` network waits).
* `src/screencast.ts` — the recording state machine.
* `src/keyboard.ts` — the modifier bitmask.

JavaScript promises are modelled by explicit `Delivery` records: resolving
or rejecting the promise of request id `i` is recorded as `Delivery.toCall i
outcome`; invoking an event listener is `Delivery.toListener`.  Opaque JSON
payloads (`result`, `params`) are modelled as `Nat` tokens, and listener
callbacks by `Nat` identity tokens (JS `Set` identity).  State that the
TypeScript classes mutate in place is threaded explicitly.
-/

namespace Thrall

/-- An opaque JSON payload (`msg.result`, `msg.params`, ...): only its
identity matters to the transport, never its structure. -/
abbrev Payload := Nat

/-- The two ways a pending promise can settle:
`resolved` models `callback.resolve(msg.result)`,
`rejected` models `callback.reject(new Error(message))`. -/
inductive Outcome where
  | resolved (v : Payload)
  | rejected (message : String)
deriving DecidableEq, Repr

/-- One observable settlement action of the dispatch layer:
either a pending call's promise settles, or an event listener
(identified by its callback token) is invoked with `params`. -/
inductive Delivery where
  | toCall (id : Nat) (out : Outcome)
  | toListener (token : Nat) (params : Payload)
deriving DecidableEq, Repr

/-- The mutable state of a `CDPSession` (src/cdp.ts):
`nextId` is the private `id` counter (incremented before use by `send`),
`pending` the key set, in insertion order, of the `callbacks` map,
`listeners` the flattening of the `eventListeners : Map<string, Set<cb>>`
map into (event name, callback token) pairs in insertion order. -/
structure SessionState where
  nextId : Nat
  pending : List Nat
  listeners : List (String × Nat)
deriving DecidableEq, Repr

/-- A successfully parsed inbound frame, as the dynamic JS object that
`JSON.parse` yields: each field is optional. -/
structure RawMsg where
  id : Option Nat
  error : Option String
  result : Payload
  method : Option String
  params : Payload
deriving DecidableEq, Repr

/-- Raw socket data: either text that `JSON.parse` accepts (carrying the
parsed message) or text on which `JSON.parse` throws. -/
inductive Inbound where
  | parsed (m : RawMsg)
  | malformed (raw : String)
deriving DecidableEq, Repr

/-- The outcome the dispatch code picks for a response frame:
`if (msg.error) reject(new Error(msg.error.message)) else resolve(msg.result)`. -/
def outcomeOf (m : RawMsg) : Outcome :=
  match m.error with
  | some e => .rejected e
  | none => .resolved m.result

namespace CDPSession

/-- Dispatch of an already-parsed frame by `handleMessage` (src/cdp.ts lines 29-46):
a frame with an `id` is routed to the pending slot of that id, which is
deleted before delivery (so an unknown or already-delivered id is dropped);
otherwise a frame with a truthy `method` is fanned out to every listener
registered for that event name, in registration order. -/
def handleParsed (st : SessionState) (m : RawMsg) : SessionState × List Delivery :=
  match m.id with
  | some i =>
      if i ∈ st.pending then
        ({ st with pending := st.pending.erase i }, [.toCall i (outcomeOf m)])
      else
        (st, [])
  | none =>
      match m.method with
      | some mth =>
          -- JS truthiness: an empty-string method fails `else if (msg.method)`.
          if mth = "" then (st, [])
          else (st, (st.listeners.filter (fun l => l.1 = mth)).map
                      (fun l => .toListener l.2 m.params))
      | none => (st, [])

/-- Entry point `handleMessage` (src/cdp.ts line 26): `JSON.parse(data)` is not guarded
by any try/catch, so malformed data makes the dispatch path throw — modelled
as `Except.error`.  Well-formed data proceeds to `handleParsed`. -/
def handleMessage (st : SessionState) (d : Inbound) :
    Except String (SessionState × List Delivery) :=
  match d with
  | .malformed _ => .error "SyntaxError: JSON.parse: unexpected character"
  | .parsed m => .ok (handleParsed st m)

/-- Model of `send` (src/cdp.ts lines 49-63): allocate `++this.id`, store a pending
slot under it, and write the frame to the socket.  Returns the id of the
new pending call. -/
def send (st : SessionState) : SessionState × Nat :=
  let i := st.nextId + 1
  ({ st with nextId := i, pending := st.pending ++ [i] }, i)

/-- Model of `on` (src/cdp.ts lines 65-70): add the callback to the `Set` for the
event name; `Set.add` of an already-present identity is a no-op. -/
def onEvent (st : SessionState) (ev : String) (tok : Nat) : SessionState :=
  if (ev, tok) ∈ st.listeners then st
  else { st with listeners := st.listeners ++ [(ev, tok)] }

/-- Model of `off` (src/cdp.ts lines 72-74): delete the callback from the event's
`Set`. -/
def offEvent (st : SessionState) (ev : String) (tok : Nat) : SessionState :=
  { st with listeners := st.listeners.erase (ev, tok) }

/-- Model of `close` (src/cdp.ts lines 76-86): reject every pending callback with
`Error("Connection closed")`, clear the callbacks map and the listeners
map, and terminate the socket. -/
def close (st : SessionState) : SessionState × List Delivery :=
  ({ st with pending := [], listeners := [] },
   st.pending.map (fun i => .toCall i (.rejected "Connection closed")))

/-- Processing a sequence of parsed inbound frames, collecting every
settlement the dispatch path performs. -/
def runMsgs (st : SessionState) : List RawMsg → SessionState × List Delivery
  | [] => (st, [])
  | m :: ms =>
      let p := handleParsed st m
      let q := runMsgs p.1 ms
      (q.1, p.2 ++ q.2)

/-- Repeated sending: `n` consecutive `send` invocations (the ids they allocate are
`nextId+1, …, nextId+n`). -/
def sendN (st : SessionState) : Nat → SessionState
  | 0 => st
  | n + 1 => sendN (send st).1 n

end CDPSession

/-- Does this delivery settle the call with request id `i`? -/
def isToCallId (i : Nat) : Delivery → Bool
  | .toCall j _ => j == i
  | .toListener _ _ => false

/-- How many of the deliveries settle request id `i`. -/
def countToCall (i : Nat) (ds : List Delivery) : Nat :=
  (ds.filter (isToCallId i)).length

/-- Number of listeners currently registered for event `ev`
(size of `eventListeners.get(ev)`). -/
def listenerCount (st : SessionState) (ev : String) : Nat :=
  (st.listeners.filter (fun l => l.1 == ev)).length

end Thrall

namespace Thrall

section Correlation

open CDPSession

/-- Routing a single parsed frame, seen from the point of view of one
request id `i`: either the frame is the response for `i` — it is pending,
the single delivery is `i`'s outcome, and `i`'s slot is deleted — or the
frame produces no delivery for `i` and leaves `i`'s pending status alone. -/
theorem handleParsed_toCall_cases (st : SessionState) (m : RawMsg) (i : Nat) :
    (m.id = some i ∧ i ∈ st.pending ∧
       (handleParsed st m).2 = [.toCall i (outcomeOf m)] ∧
       (handleParsed st m).1.pending = st.pending.erase i) ∨
    ((∀ d ∈ (handleParsed st m).2, isToCallId i d = false) ∧
       (i ∈ (handleParsed st m).1.pending ↔ i ∈ st.pending)) := by
  unfold handleParsed
  match hid : m.id with
  | some j =>
      by_cases hj : j ∈ st.pending
      · by_cases hij : j = i
        · subst hij
          exact Or.inl ⟨rfl, hj, by simp [hj], by simp [hj]⟩
        · refine Or.inr ⟨?_, ?_⟩
          · intro d hd
            simp only [hj, if_true] at hd
            simp only [List.mem_singleton] at hd
            subst hd
            simp [isToCallId, hij]
          · simp only [hj, if_true]
            exact List.mem_erase_of_ne (fun h => hij h.symm)
      · exact Or.inr ⟨by simp [hj], by simp [hj]⟩
  | none =>
      match hmth : m.method with
      | some mth =>
          by_cases he : mth = ""
          · exact Or.inr ⟨by simp [he], by simp [he]⟩
          · refine Or.inr ⟨?_, by simp [he]⟩
            intro d hd
            simp only [he, if_false, List.mem_map] at hd
            obtain ⟨l, _, rfl⟩ := hd
            rfl
      | none => exact Or.inr ⟨by simp, Iff.rfl⟩

/-- Routing a frame either leaves the pending map unchanged or deletes one
slot; it never adds a slot. -/
theorem handleParsed_pending_shape (st : SessionState) (m : RawMsg) :
    (handleParsed st m).1.pending = st.pending ∨
    ∃ j, (handleParsed st m).1.pending = st.pending.erase j := by
  unfold handleParsed
  match m.id with
  | some j =>
      by_cases hj : j ∈ st.pending
      · exact Or.inr ⟨j, by simp [hj]⟩
      · exact Or.inl (by simp [hj])
  | none =>
      match m.method with
      | some mth =>
          by_cases he : mth = ""
          · exact Or.inl (by simp [he])
          · exact Or.inl (by simp [he])
      | none => exact Or.inl rfl

/-- Distinctness of pending ids survives frame routing. -/
theorem handleParsed_nodup (st : SessionState) (m : RawMsg)
    (h : st.pending.Nodup) : (handleParsed st m).1.pending.Nodup := by
  rcases handleParsed_pending_shape st m with hs | ⟨j, hs⟩
  · rw [hs]; exact h
  · rw [hs]; exact h.erase j

/-- Counting distributes over concatenation of delivery logs. -/
theorem countToCall_append (i : Nat) (ds es : List Delivery) :
    countToCall i (ds ++ es) = countToCall i ds + countToCall i es := by
  simp [countToCall, List.filter_append]

/-- A request id that is not pending receives no delivery, however many
frames arrive, and never becomes pending again (frames only delete slots). -/
theorem runMsgs_not_pending (ms : List RawMsg) (st : SessionState) (i : Nat)
    (h : i ∉ st.pending) :
    i ∉ (runMsgs st ms).1.pending ∧ countToCall i (runMsgs st ms).2 = 0 := by
  induction ms generalizing st with
  | nil => exact ⟨h, rfl⟩
  | cons m ms ih =>
      rcases handleParsed_toCall_cases st m i with ⟨_, hi, _, _⟩ | ⟨hds, hiff⟩
      · exact absurd hi h
      · have h1 : i ∉ (handleParsed st m).1.pending := fun hc => h (hiff.mp hc)
        have := ih (handleParsed st m).1 h1
        refine ⟨this.1, ?_⟩
        show countToCall i ((handleParsed st m).2 ++ (runMsgs (handleParsed st m).1 ms).2) = 0
        rw [countToCall_append, this.2]
        have : (handleParsed st m).2.filter (isToCallId i) = [] :=
          List.filter_eq_nil_iff.mpr (fun d hd => by simp [hds d hd])
        simp [countToCall, this]

/-- Every delivery `runMsgs` makes to request id `i` carries the outcome of
an inbound frame whose own id is `i`. -/
theorem runMsgs_delivery_sound (ms : List RawMsg) (st : SessionState) (i : Nat) :
    ∀ d ∈ (runMsgs st ms).2, isToCallId i d = true →
      ∃ m ∈ ms, m.id = some i ∧ d = Delivery.toCall i (outcomeOf m) := by
  induction ms generalizing st with
  | nil => intro d hd; simp [runMsgs] at hd
  | cons m ms ih =>
      intro d hd hcall
      have hd' : d ∈ (handleParsed st m).2 ++ (runMsgs (handleParsed st m).1 ms).2 := hd
      rcases List.mem_append.mp hd' with hh | ht
      · rcases handleParsed_toCall_cases st m i with ⟨hid, _, hds, _⟩ | ⟨hds, _⟩
        · rw [hds] at hh
          simp only [List.mem_singleton] at hh
          exact ⟨m, List.mem_cons_self m ms, hid, hh⟩
        · rw [hds d hh] at hcall; cases hcall
      · obtain ⟨m', hm', hid', hd''⟩ := ih (handleParsed st m).1 d ht hcall
        exact ⟨m', List.mem_cons_of_mem m hm', hid', hd''⟩

/-- If `i` is pending, the first inbound frame bearing id `i` is the one
whose outcome is delivered to `i`'s slot. -/
theorem runMsgs_first_frame (ms : List RawMsg) (st : SessionState) (i : Nat)
    (hi : i ∈ st.pending) (m : RawMsg)
    (hf : ms.find? (fun m => m.id == some i) = some m) :
    Delivery.toCall i (outcomeOf m) ∈ (runMsgs st ms).2 := by
  induction ms generalizing st with
  | nil => cases hf
  | cons m0 ms ih =>
      by_cases hp : m0.id = some i
      · have hb : (fun m => m.id == some i) m0 = true := by simp [hp]
        rw [List.find?_cons_of_pos (p := fun m => m.id == some i) ms hb] at hf
        obtain rfl : m0 = m := by injection hf
        have hmem : Delivery.toCall i (outcomeOf m0) ∈ (handleParsed st m0).2 := by
          unfold handleParsed
          rw [hp]
          simp [hi]
        exact List.mem_append_left _ hmem
      · have hb : ¬(fun m => m.id == some i) m0 = true := by simp [hp]
        rw [List.find?_cons_of_neg (p := fun m => m.id == some i) ms hb] at hf
        rcases handleParsed_toCall_cases st m0 i with ⟨hid, _, _, _⟩ | ⟨_, hiff⟩
        · exact absurd hid hp
        · have hi' : i ∈ (handleParsed st m0).1.pending := hiff.mpr hi
          exact List.mem_append_right _ (ih (handleParsed st m0).1 hi' hf)

/-- With distinct pending ids, each request id is settled at most once:
after its slot is delivered and deleted, later frames with the same id are
dropped. -/
theorem runMsgs_count_le_one (ms : List RawMsg) (st : SessionState) (i : Nat)
    (hnd : st.pending.Nodup) : countToCall i (runMsgs st ms).2 ≤ 1 := by
  induction ms generalizing st with
  | nil => exact Nat.zero_le 1
  | cons m ms ih =>
      show countToCall i ((handleParsed st m).2 ++ (runMsgs (handleParsed st m).1 ms).2) ≤ 1
      rw [countToCall_append]
      rcases handleParsed_toCall_cases st m i with ⟨_, hi, hds, hpend⟩ | ⟨hds, _⟩
      · have hni : i ∉ (handleParsed st m).1.pending := by
          rw [hpend]
          exact hnd.not_mem_erase
        have htail := (runMsgs_not_pending ms (handleParsed st m).1 i hni).2
        rw [htail, hds]
        simp [countToCall, isToCallId]
      · have : (handleParsed st m).2.filter (isToCallId i) = [] :=
          List.filter_eq_nil_iff.mpr (fun d hd => by simp [hds d hd])
        have hhead : countToCall i (handleParsed st m).2 = 0 := by simp [countToCall, this]
        rw [hhead]
        simpa using ih (handleParsed st m).1 (handleParsed_nodup st m hnd)

/-- The pending ids after `n` fresh `send`s from a clean session are the
consecutive ids `nextId+1, …, nextId+n`. -/
theorem sendN_pending (n : Nat) (st : SessionState) :
    (sendN st n).pending = st.pending ++ List.range' (st.nextId + 1) n := by
  induction n generalizing st with
  | zero => simp [sendN]
  | succ n ih =>
      show (sendN (send st).1 n).pending = _
      rw [ih]
      simp [send, List.range'_succ, List.append_assoc]

/-- Claim C1: `N` concurrent `send()` invocations on one fresh `CDPSession`
get the `N` distinct request ids `nextId+1, …, nextId+N`; then, whatever
sequence of response frames arrives and in whatever order, (a) each id's
promise settles at most once, (b) any settlement of id `i` carries exactly
the result/error of a frame whose own id is `i`, (c) the pending call `i`
receives the outcome of the first frame bearing id `i`, and (d) a frame
whose id matches no pending slot (stray duplicate or unknown id) is
silently dropped: no state change, no delivery. -/
theorem send_response_correlation (st : SessionState) (N : Nat)
    (hp : st.pending = []) (ms : List RawMsg) (i : Nat) :
    (sendN st N).pending.length = N ∧
    (sendN st N).pending.Nodup ∧
    countToCall i (runMsgs (sendN st N) ms).2 ≤ 1 ∧
    (∀ d ∈ (runMsgs (sendN st N) ms).2, isToCallId i d = true →
       ∃ m ∈ ms, m.id = some i ∧ d = Delivery.toCall i (outcomeOf m)) ∧
    (i ∈ (sendN st N).pending →
       ∀ m, ms.find? (fun m => m.id == some i) = some m →
         Delivery.toCall i (outcomeOf m) ∈ (runMsgs (sendN st N) ms).2) ∧
    (∀ st' : SessionState, ∀ m : RawMsg, m.id = some i → i ∉ st'.pending →
       handleParsed st' m = (st', [])) := by
  have hpend : (sendN st N).pending = List.range' (st.nextId + 1) N := by
    rw [sendN_pending, hp, List.nil_append]
  have hnd : (sendN st N).pending.Nodup := by
    rw [hpend]; exact List.nodup_range' _ _
  refine ⟨by rw [hpend]; exact List.length_range' .., hnd,
    runMsgs_count_le_one ms _ i hnd,
    runMsgs_delivery_sound ms _ i,
    fun hi m hf => runMsgs_first_frame ms _ i hi m hf,
    fun st' m hm hni => ?_⟩
  unfold handleParsed
  rw [hm]
  simp [hni]

/-- Concrete instance of C1: two sends allocate ids 1 and 2; the responses
arrive out of order (id 2 first), and call 1 still receives the payload of
the frame with id 1. -/
theorem send_response_correlation_witness :
    Delivery.toCall 1 (Outcome.resolved 42) ∈
      (CDPSession.runMsgs (CDPSession.sendN ⟨0, [], []⟩ 2)
        [⟨some 2, none, 7, none, 0⟩, ⟨some 1, none, 42, none, 0⟩]).2 := by
  have h := send_response_correlation ⟨0, [], []⟩ 2 rfl
    [⟨some 2, none, 7, none, 0⟩, ⟨some 1, none, 42, none, 0⟩] 1
  exact h.2.2.2.2.1 (by decide) ⟨some 1, none, 42, none, 0⟩ (by decide)

end Correlation

/-- Claim C3, code evaluation: The claim says a non-JSON inbound frame is
dropped without raising an uncaught error.  In the code, `handleMessage`
begins with an unguarded `JSON.parse(data)`, so a malformed frame makes the
dispatch path throw (here: `Except.error`).  A well-formed frame lacking
both `id` and `method` *is* silently dropped with both maps unchanged. -/
theorem malformed_frame_throws_in_dispatch :
    CDPSession.handleMessage ⟨5, [1, 2], [("Page.loadEventFired", 0)]⟩
        (Inbound.malformed "not json")
      = Except.error "SyntaxError: JSON.parse: unexpected character" ∧
    CDPSession.handleMessage ⟨5, [1, 2], [("Page.loadEventFired", 0)]⟩
        (Inbound.parsed ⟨none, none, 0, none, 0⟩)
      = Except.ok (⟨5, [1, 2], [("Page.loadEventFired", 0)]⟩, []) :=
  ⟨rfl, rfl⟩

/-- The id carried by raw socket data, when it parses at all. -/
def Inbound.frameId : Inbound → Option Nat
  | .parsed m => m.id
  | .malformed _ => none

/-- The operations a caller (or the socket) can perform on a live
`CDPSession` object. -/
inductive Op where
  | send
  | handle (d : Inbound)
  | sessionClose
  | subscribe (ev : String) (tok : Nat)
  | unsubscribe (ev : String) (tok : Nat)
deriving DecidableEq, Repr

/-- One session operation, with the settlements it performs.  A thrown
parse exception escapes the `onmessage` callback without touching the
session's maps, so the session object survives it unchanged. -/
def stepOp (st : SessionState) : Op → SessionState × List Delivery
  | .send => ((CDPSession.send st).1, [])
  | .handle d =>
      match CDPSession.handleMessage st d with
      | .ok r => r
      | .error _ => (st, [])
  | .sessionClose => CDPSession.close st
  | .subscribe ev tok => (CDPSession.onEvent st ev tok, [])
  | .unsubscribe ev tok => (CDPSession.offEvent st ev tok, [])

/-- A sequence of session operations, with all settlements collected. -/
def runOps (st : SessionState) : List Op → SessionState × List Delivery
  | [] => (st, [])
  | op :: ops =>
      let p := stepOp st op
      let q := runOps p.1 ops
      (q.1, p.2 ++ q.2)

/-- A pending id survives any operation sequence that contains neither a
`close()` nor an inbound frame bearing that id, and no settlement for it is
ever delivered along the way. -/
theorem runOps_pending_survives (ops : List Op) (st : SessionState) (j : Nat)
    (hj : j ∈ st.pending)
    (hnc : Op.sessionClose ∉ ops)
    (hnf : ∀ d, Op.handle d ∈ ops → Inbound.frameId d ≠ some j) :
    j ∈ (runOps st ops).1.pending ∧
    ∀ dl ∈ (runOps st ops).2, isToCallId j dl = false := by
  induction ops generalizing st with
  | nil => exact ⟨hj, by intro dl h; cases h⟩
  | cons op ops ih =>
      have hnc' : Op.sessionClose ∉ ops := fun h => hnc (List.mem_cons_of_mem _ h)
      have hnf' : ∀ d, Op.handle d ∈ ops → Inbound.frameId d ≠ some j :=
        fun d h => hnf d (List.mem_cons_of_mem _ h)
      have hstep : j ∈ (stepOp st op).1.pending ∧
          ∀ dl ∈ (stepOp st op).2, isToCallId j dl = false := by
        match op with
        | .send =>
            exact ⟨List.mem_append_left _ hj, by intro dl h; cases h⟩
        | .handle d =>
            match d with
            | .malformed raw => exact ⟨hj, by intro dl h; cases h⟩
            | .parsed m =>
                have hid : m.id ≠ some j :=
                  hnf (.parsed m) (List.mem_cons_self _ _)
                rcases handleParsed_toCall_cases st m j with
                  ⟨hmid, _, _, _⟩ | ⟨hds, hiff⟩
                · exact absurd hmid hid
                · exact ⟨hiff.mpr hj, hds⟩
        | .sessionClose =>
            exact absurd (List.mem_cons_self _ _) hnc
        | .subscribe ev tok =>
            refine ⟨?_, by intro dl h; cases h⟩
            show j ∈ (CDPSession.onEvent st ev tok).pending
            unfold CDPSession.onEvent
            split <;> exact hj
        | .unsubscribe ev tok => exact ⟨hj, by intro dl h; cases h⟩
      have := ih (stepOp st op).1 hstep.1 hnc' hnf'
      refine ⟨this.1, ?_⟩
      intro dl hdl
      rcases List.mem_append.mp hdl with hh | ht
      · exact hstep.2 dl hh
      · exact this.2 dl ht

/-- Claim C10: After `close()` has run, a further `send()` registers a fresh
pending-result slot (id `nextId+1`) that nothing can settle anymore: the
earlier `close()` rejected only the calls pending at its moment (never this
id, which did not exist yet), and any later operation sequence containing
no further `close()` and — the socket being terminated — no inbound frame
for this id leaves the slot pending with no delivery ever made to it. -/
theorem send_after_close_never_settles (st0 : SessionState) (ops : List Op)
    (hinv : ∀ i ∈ st0.pending, i ≤ st0.nextId)
    (hnc : Op.sessionClose ∉ ops)
    (hnf : ∀ d, Op.handle d ∈ ops →
       Inbound.frameId d ≠ some (CDPSession.send (CDPSession.close st0).1).2) :
    (CDPSession.send (CDPSession.close st0).1).2 ∈
      (CDPSession.send (CDPSession.close st0).1).1.pending ∧
    (∀ dl ∈ (CDPSession.close st0).2,
       isToCallId (CDPSession.send (CDPSession.close st0).1).2 dl = false) ∧
    (CDPSession.send (CDPSession.close st0).1).2 ∈
      (runOps (CDPSession.send (CDPSession.close st0).1).1 ops).1.pending ∧
    ∀ dl ∈ (runOps (CDPSession.send (CDPSession.close st0).1).1 ops).2,
      isToCallId (CDPSession.send (CDPSession.close st0).1).2 dl = false := by
  have hj : (CDPSession.send (CDPSession.close st0).1).2 ∈
      (CDPSession.send (CDPSession.close st0).1).1.pending := by
    simp [CDPSession.send, CDPSession.close]
  have hsurv := runOps_pending_survives ops
    (CDPSession.send (CDPSession.close st0).1).1
    (CDPSession.send (CDPSession.close st0).1).2 hj hnc hnf
  refine ⟨hj, ?_, hsurv.1, hsurv.2⟩
  intro dl hdl
  simp only [CDPSession.close, List.mem_map] at hdl
  obtain ⟨i, hi, rfl⟩ := hdl
  have hle : i ≤ st0.nextId := hinv i hi
  simp only [CDPSession.send, CDPSession.close, isToCallId, beq_eq_false_iff_ne, ne_eq]
  omega

/-- Concrete instance of C10: a session with calls 1 and 2 pending is
closed; a posthumous `send` registers id 4, which survives a later `send`,
a stray frame for the dead id 1, and a subscription — pending forever,
never settled. -/
theorem send_after_close_never_settles_witness :
    (CDPSession.send (CDPSession.close ⟨3, [1, 2], []⟩).1).2 ∈
      (runOps (CDPSession.send (CDPSession.close ⟨3, [1, 2], []⟩).1).1
        [Op.send, Op.handle (.parsed ⟨some 1, none, 0, none, 0⟩),
         Op.subscribe "Page.loadEventFired" 5]).1.pending := by
  have h := send_after_close_never_settles ⟨3, [1, 2], []⟩
    [Op.send, Op.handle (.parsed ⟨some 1, none, 0, none, 0⟩),
     Op.subscribe "Page.loadEventFired" 5]
    (by decide) (by decide)
    (by
      intro d hd
      simp only [List.mem_cons, List.not_mem_nil, or_false] at hd
      rcases hd with h1 | h1 | h1
      · cases h1
      · cases h1; decide
      · cases h1)
  exact h.2.2.1

/-- How the `Promise.race([loadPromise, timeoutPromise])` inside
`goto`/`reload`/`waitForNavigation` settles. -/
inductive NavSettle where
  | loaded
  | navTimeout
deriving DecidableEq, Repr

/-- Arming the navigation wait (part_002 lines 543-549): register the load
handler on the session before/around issuing the navigation command. -/
def armNavWait (st : SessionState) (ev : String) (tok : Nat) : SessionState :=
  CDPSession.onEvent st ev tok

/-- Settling the navigation wait (part_002 lines 543-564): when the load
event fires, the handler removes itself (`this.cdp.off(eventName, handler)`)
then resolves; when the timer fires first, the `finally` block only runs
`clearTimeout(timer)` — the load handler is *not* unsubscribed. -/
def settleNavWait (st : SessionState) (ev : String) (tok : Nat) :
    NavSettle → SessionState
  | .loaded => CDPSession.offEvent st ev tok
  | .navTimeout => st

/-- Claim C4, code evaluation: The claim says every settlement path of a
navigation wait removes its load-event subscription.  The load path does;
the timeout path does not: starting from a session with no listeners, one
timed-out `goto` leaves 1 listener for `Page.loadEventFired`, a second
timed-out `goto` leaves 2 — the count never returns to the baseline 0.
Only the event path restores the baseline. -/
theorem nav_timeout_leaks_listener :
    listenerCount (⟨0, [], []⟩ : SessionState) "Page.loadEventFired" = 0 ∧
    listenerCount
      (settleNavWait (armNavWait ⟨0, [], []⟩ "Page.loadEventFired" 1)
        "Page.loadEventFired" 1 .loaded) "Page.loadEventFired" = 0 ∧
    listenerCount
      (settleNavWait (armNavWait ⟨0, [], []⟩ "Page.loadEventFired" 1)
        "Page.loadEventFired" 1 .navTimeout) "Page.loadEventFired" = 1 ∧
    listenerCount
      (settleNavWait
        (armNavWait
          (settleNavWait (armNavWait ⟨0, [], []⟩ "Page.loadEventFired" 1)
            "Page.loadEventFired" 1 .navTimeout)
          "Page.loadEventFired" 2)
        "Page.loadEventFired" 2 .navTimeout) "Page.loadEventFired" = 2 := by
  decide

section PollLoops

/-- One iteration of the `waitForSelector` loop body (part_002 lines
630-640).  `resolve i` is what `this.$(selector)` yields on the `i`-th
poll (a node id, or `none` when `DOM.querySelector` returns node id 0);
`vis e` is `element.isVisible()`.  Result `some r` means the poll returns
`r` (`r = none` is hidden-mode's "not found" return of the null element);
`none` means keep polling. -/
def wfsProbe (resolve : Nat → Option Nat) (vis : Nat → Bool)
    (visible hidden : Bool) (i : Nat) : Option (Option Nat) :=
  match resolve i with
  | none => if hidden then some none else none
  | some e =>
      if hidden then
        if vis e then none else some (some e)
      else
        if !visible then some (some e)
        else if vis e then some (some e) else none

/-- The `while (Date.now() - start < timeout)` poll loop, discretised:
iteration `i` runs at elapsed time `i·pollMs` (probes take no model time,
each failed probe is followed by `Bun.sleep(pollMs)`); `fuel` is the number
of iterations the deadline admits.  Returns the first probe success (or
`none` for the `TimeoutError` throw after the loop) paired with how many
probes were attempted. -/
def pollLoop (probe : Nat → Option α) : Nat → Nat → Option α × Nat
  | _, 0 => (none, 0)
  | i, fuel + 1 =>
      match probe i with
      | some a => (some a, 1)
      | none =>
          let r := pollLoop probe (i + 1) fuel
          (r.1, r.2 + 1)

/-- Iterations admitted by the deadline: the body runs while
`i·pollMs < timeout`, so a zero or negative timeout admits none. -/
def numPolls (timeout : Int) (pollMs : Nat) : Nat :=
  if timeout ≤ 0 then 0 else ((timeout - 1) / pollMs + 1).toNat

/-- Model of `Page.waitForSelector` (part_002 lines 622-646) with its 100 ms polling
interval.  First component `some r`: the returned handle (`none` = the
null element returned in hidden mode); `none`: the
`Timeout waiting for selector` throw.  Second component: probes attempted. -/
def waitForSelector (resolve : Nat → Option Nat) (vis : Nat → Bool)
    (visible hidden : Bool) (timeout : Int) : Option (Option Nat) × Nat :=
  pollLoop (wfsProbe resolve vis visible hidden) 0 (numPolls timeout 100)

/-- Model of `Page.waitForFunction` (part_002 lines 779-801): poll
`Runtime.evaluate` until the value is truthy (nonzero token). -/
def waitForFunction (evalFn : Nat → Nat) (timeout : Int) (polling : Nat) :
    Option Nat × Nat :=
  pollLoop (fun i => if evalFn i ≠ 0 then some (evalFn i) else none) 0
    (numPolls timeout polling)

/-- Claim C5, code evaluation: The claim says a zero or negative timeout
still attempts at least one probe.  In the code the deadline is checked
*before* the first probe (`while (Date.now() - start < timeout)` with
elapsed = 0), so `timeout = 0` or `timeout = -100` attempts **zero** probes
and throws the timeout error — even when the very first probe would have
succeeded (here the selector resolves immediately and the function is
immediately truthy). -/
theorem zero_timeout_attempts_no_probe :
    waitForSelector (fun _ => some 1) (fun _ => true) false false 0 = (none, 0) ∧
    waitForSelector (fun _ => some 1) (fun _ => true) false false (-100) = (none, 0) ∧
    waitForFunction (fun _ => 1) 0 100 = (none, 0) ∧
    waitForFunction (fun _ => 1) (-1) 100 = (none, 0) := by
  refine ⟨?_, ?_, ?_, ?_⟩ <;> rfl

/-- A positive timeout admits at least one poll. -/
theorem numPolls_pos (timeout : Int) (pollMs : Nat) (ht : 0 < timeout) :
    ∃ n, numPolls timeout pollMs = n + 1 := by
  unfold numPolls
  rw [if_neg (by omega)]
  have h1 : 0 ≤ (timeout - 1) / pollMs :=
    Int.ediv_nonneg (by omega) (by positivity)
  refine ⟨((timeout - 1) / pollMs).toNat, ?_⟩
  omega

/-- Claim C6: `waitForSelector` with `hidden = true` against a selector that
never resolves succeeds on the very first poll, returning the "not found"
null element after exactly one probe — for any positive timeout, so it does
not sleep out the deadline.  Moreover a hidden-mode poll succeeds exactly
when the element does not resolve or resolves to a non-visible element. -/
theorem hidden_wait_not_found (resolve resolveB : Nat → Option Nat)
    (vis visB : Nat → Bool) (timeout : Int)
    (hnone : ∀ i, resolve i = none) (ht : 0 < timeout) :
    waitForSelector resolve vis false true timeout = (some none, 1) ∧
    ∀ i, (wfsProbe resolveB visB false true i).isSome = true ↔
      (resolveB i = none ∨ ∃ e, resolveB i = some e ∧ visB e = false) := by
  constructor
  · obtain ⟨n, hn⟩ := numPolls_pos timeout 100 ht
    unfold waitForSelector
    rw [hn]
    show pollLoop (wfsProbe resolve vis false true) 0 (n + 1) = (some none, 1)
    unfold pollLoop
    rw [show wfsProbe resolve vis false true 0 = some none by
      unfold wfsProbe; rw [hnone 0]; rfl]
  · intro i
    unfold wfsProbe
    match hr : resolveB i with
    | none => simp
    | some e =>
        by_cases hv : visB e = true
        · simp [hv]
        · simp only [Bool.not_eq_true] at hv
          simp [hv]

/-- Concrete instance of C6: with a 30-second timeout (300 admitted polls),
the hidden-mode wait for a never-matching selector returns "not found"
after a single probe. -/
theorem hidden_wait_not_found_witness :
    waitForSelector (fun _ => none) (fun _ => true) false true 30000 =
      (some none, 1) :=
  (hidden_wait_not_found (fun _ => none) (fun _ => none) (fun _ => true)
    (fun _ => true) 30000 (fun _ => rfl) (by decide)).1

end PollLoops

section NetworkWaits

/-- The fields of a `Network.responseReceived` payload the waiter reads
(part_002 lines 815-822). -/
structure RespEvent where
  url : String
  status : Nat
  headers : List (String × String)
deriving DecidableEq, Repr

/-- The fields of a `Network.requestWillBeSent` payload the waiter reads
(part_002 lines 856-859). -/
structure ReqEvent where
  url : String
  method : String
deriving DecidableEq, Repr

/-- The `urlOrPredicate` argument: a literal substring, a RegExp (its
`test` method modelled as an opaque predicate on the URL), or a caller
predicate. -/
inductive UrlMatch where
  | substr (s : String)
  | regex (test : String → Bool)
  | pred (f : String → Bool)

/-- Model of `String.prototype.includes`: does `needle` occur contiguously inside
the character list? -/
def charsContain (needle : List Char) : List Char → Bool
  | [] => needle.isEmpty
  | c :: t => needle.isPrefixOf (c :: t) || charsContain needle t

/-- The `matches` computation (part_002 lines 823-831): `url.includes(s)`,
`re.test(url)`, or `f(url)`. -/
def urlMatches : UrlMatch → String → Bool
  | .substr s, url => charsContain s.data url.data
  | .regex t, url => t url
  | .pred f, url => f url

/-- The state of one armed network waiter: whether its handler is still
subscribed on the session, and how its promise settled (`none` = still
pending). -/
structure NetWait (ε : Type) where
  subscribed : Bool
  outcome : Option (Except String ε)

/-- Delivery of one traffic event to the armed handler (part_002 lines
810-838 / 851-875): the handler runs only while subscribed; a matching
event clears the timer, unsubscribes the handler, and resolves with the
event's own fields; a non-matching event is ignored. -/
def netStep (matcher : ε → Bool) (w : NetWait ε) (ev : ε) : NetWait ε :=
  if w.subscribed then
    if matcher ev then { subscribed := false, outcome := some (.ok ev) }
    else w
  else w

/-- A whole network wait: subscribe, deliver every traffic event that
arrives before the deadline, then — if still unsettled — the timer fires:
unsubscribe and reject with the timeout error. -/
def runNetWait (matcher : ε → Bool) (timeoutMsg : String) (evs : List ε) :
    NetWait ε :=
  let w := evs.foldl (netStep matcher) { subscribed := true, outcome := none }
  match w.outcome with
  | some _ => w
  | none => { subscribed := false, outcome := some (.error timeoutMsg) }

/-- Model of `Page.waitForResponse` (part_002 lines 803-842), applied to the
response events delivered before the deadline. -/
def runWaitForResponse (loc : UrlMatch) (evs : List RespEvent) :
    NetWait RespEvent :=
  runNetWait (fun ev => urlMatches loc ev.url) "Timeout waiting for response" evs

/-- Model of `Page.waitForRequest` (part_002 lines 844-879). -/
def runWaitForRequest (loc : UrlMatch) (evs : List ReqEvent) :
    NetWait ReqEvent :=
  runNetWait (fun ev => urlMatches loc ev.url) "Timeout waiting for request" evs

/-- Once the handler is off (settled), later events no longer reach it. -/
theorem netFold_frozen (matcher : ε → Bool) (evs : List ε) (w : NetWait ε)
    (h : w.subscribed = false) : evs.foldl (netStep matcher) w = w := by
  induction evs with
  | nil => rfl
  | cons ev evs ih =>
      rw [List.foldl_cons, show netStep matcher w ev = w by simp [netStep, h]]
      exact ih

/-- The fold either never matches (still armed, unsettled) or settles with
exactly the first matching event and is unsubscribed. -/
theorem netFold_cases (matcher : ε → Bool) (evs : List ε) :
    (evs.find? matcher = none ∧
       evs.foldl (netStep matcher) ⟨true, none⟩ = ⟨true, none⟩) ∨
    (∃ ev, evs.find? matcher = some ev ∧
       evs.foldl (netStep matcher) ⟨true, none⟩ = ⟨false, some (.ok ev)⟩) := by
  induction evs with
  | nil => exact Or.inl ⟨rfl, rfl⟩
  | cons ev evs ih =>
      by_cases hm : matcher ev = true
      · have hstep : netStep matcher ⟨true, none⟩ ev = ⟨false, some (.ok ev)⟩ := by
          simp [netStep, hm]
        refine Or.inr ⟨ev, ?_, ?_⟩
        · rw [List.find?_cons_of_pos _ hm]
        · rw [List.foldl_cons, hstep]
          exact netFold_frozen matcher evs _ rfl
      · have hmf : matcher ev = false := by
          cases hmm : matcher ev with
          | true => exact absurd hmm hm
          | false => rfl
        have hstep : netStep matcher ⟨true, none⟩ ev = ⟨true, none⟩ := by
          simp [netStep, hmf]
        rcases ih with ⟨hf, he⟩ | ⟨ev', hf, he⟩
        · exact Or.inl ⟨by rw [List.find?_cons_of_neg _ hm, hf],
            by rw [List.foldl_cons, hstep, he]⟩
        · exact Or.inr ⟨ev', by rw [List.find?_cons_of_neg _ hm, hf],
            by rw [List.foldl_cons, hstep, he]⟩

/-- Generic form of C7 for either traffic direction. -/
theorem runNetWait_spec (matcher : ε → Bool) (timeoutMsg : String)
    (evs : List ε) :
    (runNetWait matcher timeoutMsg evs).subscribed = false ∧
    (∀ ev, evs.find? matcher = some ev →
       (runNetWait matcher timeoutMsg evs).outcome = some (.ok ev)) ∧
    (evs.find? matcher = none →
       (runNetWait matcher timeoutMsg evs).outcome = some (.error timeoutMsg)) := by
  rcases netFold_cases matcher evs with ⟨hf, he⟩ | ⟨ev', hf, he⟩
  · refine ⟨?_, ?_, ?_⟩
    · unfold runNetWait
      rw [he]
    · intro ev hev
      rw [hf] at hev
      cases hev
    · intro _
      unfold runNetWait
      rw [he]
  · refine ⟨?_, ?_, ?_⟩
    · unfold runNetWait
      rw [he]
    · intro ev hev
      rw [hf] at hev
      obtain rfl : ev' = ev := by injection hev
      unfold runNetWait
      rw [he]
    · intro hev
      rw [hf] at hev
      cases hev

/-- Claim C7: A network wait (`waitForResponse` / `waitForRequest`) resolves
with the url/status-or-method/headers of the *first* event matching the
locator (all other events are ignored — the settled handler no longer
fires), rejects with its timeout error when no event before the deadline
matches, and ends unsubscribed on both the success and the timeout path. -/
theorem network_wait_first_match (loc locQ : UrlMatch) (evs : List RespEvent)
    (qs : List ReqEvent) :
    (runWaitForResponse loc evs).subscribed = false ∧
    (∀ ev, evs.find? (fun ev => urlMatches loc ev.url) = some ev →
       (runWaitForResponse loc evs).outcome = some (.ok ev)) ∧
    (evs.find? (fun ev => urlMatches loc ev.url) = none →
       (runWaitForResponse loc evs).outcome =
         some (.error "Timeout waiting for response")) ∧
    (runWaitForRequest locQ qs).subscribed = false ∧
    (∀ ev, qs.find? (fun ev => urlMatches locQ ev.url) = some ev →
       (runWaitForRequest locQ qs).outcome = some (.ok ev)) ∧
    (qs.find? (fun ev => urlMatches locQ ev.url) = none →
       (runWaitForRequest locQ qs).outcome =
         some (.error "Timeout waiting for request")) := by
  obtain ⟨h1, h2, h3⟩ :=
    runNetWait_spec (fun ev : RespEvent => urlMatches loc ev.url)
      "Timeout waiting for response" evs
  obtain ⟨h4, h5, h6⟩ :=
    runNetWait_spec (fun ev : ReqEvent => urlMatches locQ ev.url)
      "Timeout waiting for request" qs
  exact ⟨h1, h2, h3, h4, h5, h6⟩

/-- Concrete instance of C7 (the spec's burst-of-five scenario): armed for
the URL substring `api`, five responses arrive and only the third matches;
the wait resolves with the third event's status and headers and ignores the
other four. -/
theorem network_wait_first_match_witness :
    (runWaitForResponse (.substr "api")
      [⟨"https://a.test/x", 200, []⟩,
       ⟨"https://a.test/y", 301, []⟩,
       ⟨"https://a.test/api/v1", 404, [("x-a", "1")]⟩,
       ⟨"https://a.test/api/v2", 200, []⟩,
       ⟨"https://a.test/z", 500, []⟩]).outcome =
      some (.ok ⟨"https://a.test/api/v1", 404, [("x-a", "1")]⟩) := by
  have h := network_wait_first_match (.substr "api") (.substr "api")
    [⟨"https://a.test/x", 200, []⟩,
     ⟨"https://a.test/y", 301, []⟩,
     ⟨"https://a.test/api/v1", 404, [("x-a", "1")]⟩,
     ⟨"https://a.test/api/v2", 200, []⟩,
     ⟨"https://a.test/z", 500, []⟩] []
  exact h.2.1 ⟨"https://a.test/api/v1", 404, [("x-a", "1")]⟩ (by decide)

end NetworkWaits

section ScreencastModel

/-- One captured frame (src/screencast.ts lines 20-31): the base64 payload
as pushed (decoding is a byte-level operation abstracted away) and the
capture timestamp; viewport metadata is likewise opaque here. -/
structure ScreencastFrame where
  data : String
  timestamp : Nat
deriving DecidableEq, Repr

/-- The mutable fields of a `Screencast` that the recording state machine
touches: the frame buffer, the `recording` flag, and whether the
`Page.screencastFrame` handler is installed. -/
structure ScreencastState where
  frames : List ScreencastFrame
  recording : Bool
  handlerInstalled : Bool
deriving DecidableEq, Repr

namespace Screencast

/-- Model of `start()` (src/screencast.ts lines 54-90): throws
`Screencast already recording` when already recording; otherwise clears the
frame buffer, flips `recording`, installs the frame handler, and issues
`Page.startScreencast`. -/
def start (st : ScreencastState) : Except String ScreencastState :=
  if st.recording then .error "Screencast already recording"
  else .ok { frames := [], recording := true, handlerInstalled := true }

/-- The frame handler (src/screencast.ts lines 62-79): while recording,
append the decoded frame to the buffer (and ack it by session id);
a frame arriving when not recording is ignored. -/
def onFrame (st : ScreencastState) (f : ScreencastFrame) : ScreencastState :=
  if st.recording then { st with frames := st.frames ++ [f] } else st

/-- Model of `stop()` (src/screencast.ts lines 95-109): throws
`Screencast not recording` unless recording; otherwise issues
`Page.stopScreencast`, removes the frame handler, flips `recording` off,
and returns the accumulated buffer — which it does *not* clear. -/
def stop (st : ScreencastState) :
    Except String (ScreencastState × List ScreencastFrame) :=
  if st.recording then
    .ok ({ st with recording := false, handlerInstalled := false }, st.frames)
  else .error "Screencast not recording"

/-- Model of `isRecording()` (src/screencast.ts lines 114-116): a pure read. -/
def isRecording (st : ScreencastState) : Bool := st.recording

/-- Model of `frameCount()` (src/screencast.ts lines 121-123): a pure read. -/
def frameCount (st : ScreencastState) : Nat := st.frames.length

end Screencast

/-- While recording, delivered frames accumulate in arrival order and the
recording flag stays on. -/
theorem screencast_run (fs : List ScreencastFrame) (st : ScreencastState)
    (h : st.recording = true) :
    fs.foldl Screencast.onFrame st =
      { st with frames := st.frames ++ fs } := by
  induction fs generalizing st with
  | nil => simp
  | cons f fs ih =>
      rw [List.foldl_cons,
        show Screencast.onFrame st f = { st with frames := st.frames ++ [f] } by
          simp [Screencast.onFrame, h]]
      rw [ih _ (by simpa using h)]
      simp

/-- Claim C8: The screencast state machine: `start` while recording fails
with `Screencast already recording`; `stop` while not recording fails with
`Screencast not recording`; frames delivered while recording accumulate in
order; a successful `stop` returns the accumulated buffer, after which
`frameCount` still reports the completed recording's length and
`isRecording` is false, until the next `start`, which begins with an empty
buffer.  `isRecording`/`frameCount` are pure reads of the state. -/
theorem screencast_state_machine (st : ScreencastState)
    (fs : List ScreencastFrame) :
    (st.recording = true →
       Screencast.start st = .error "Screencast already recording") ∧
    (st.recording = false →
       Screencast.stop st = .error "Screencast not recording") ∧
    (st.recording = true →
       (fs.foldl Screencast.onFrame st).frames = st.frames ++ fs) ∧
    (st.recording = true →
       ∃ st', Screencast.stop st = .ok (st', st.frames) ∧
         Screencast.frameCount st' = st.frames.length ∧
         Screencast.isRecording st' = false ∧
         ∀ st2, Screencast.start st' = .ok st2 →
           st2.frames = [] ∧ st2.recording = true) ∧
    Screencast.isRecording st = st.recording ∧
    Screencast.frameCount st = st.frames.length := by
  refine ⟨?_, ?_, ?_, ?_, rfl, rfl⟩
  · intro h
    simp [Screencast.start, h]
  · intro h
    simp [Screencast.stop, h]
  · intro h
    rw [screencast_run fs st h]
  · intro h
    refine ⟨{ st with recording := false, handlerInstalled := false },
      by simp [Screencast.stop, h], rfl, rfl, ?_⟩
    intro st2 hst2
    have hs : Screencast.start { st with recording := false, handlerInstalled := false } =
        .ok ⟨[], true, true⟩ := by
      simp [Screencast.start]
    rw [hs] at hst2
    obtain rfl : (⟨[], true, true⟩ : ScreencastState) = st2 := by injection hst2
    exact ⟨rfl, rfl⟩

/-- Concrete instance of C8: a two-frame recording is stopped; the count
still reads 2, a double `stop` then fails, and a fresh `start` succeeds
with an empty buffer. -/
theorem screencast_state_machine_witness :
    Screencast.start (⟨[⟨"aGk=", 5⟩], true, true⟩ : ScreencastState) =
      .error "Screencast already recording" ∧
    ∃ st', Screencast.stop (⟨[⟨"aGk=", 5⟩], true, true⟩ : ScreencastState) =
        .ok (st', [⟨"aGk=", 5⟩]) ∧
      Screencast.frameCount st' = 1 := by
  have h := screencast_state_machine (⟨[⟨"aGk=", 5⟩], true, true⟩ :
    ScreencastState) []
  refine ⟨h.1 rfl, ?_⟩
  obtain ⟨st', hstop, hcount, _, _⟩ := h.2.2.2.1 rfl
  exact ⟨st', hstop, hcount⟩

end ScreencastModel

section KeyboardModel

/-- The 32-bit all-ones mask: JS bitwise operators truncate to 32 bits, so
`m &= ~b` is `m := m &&& (MASK32 ^^^ b)` for the modifier state, which is
always a small non-negative integer. -/
def MASK32 : Nat := 2 ^ 32 - 1

/-- The modifier bit the CDP protocol assigns to a key
(src/keyboard.ts lines 52-55): Shift = 8, Control = 4, Alt = 2, Meta = 1,
anything else touches no bit. -/
def modifierBit (key : String) : Nat :=
  if key = "Shift" then 8
  else if key = "Control" then 4
  else if key = "Alt" then 2
  else if key = "Meta" then 1
  else 0

/-- Model of the `Keyboard.down` mutation of `this.modifiers`
(src/keyboard.ts lines 52-55): four independent `if`s, each ORing in one
bit. -/
def keyDown (m : Nat) (key : String) : Nat :=
  let m1 := if key = "Shift" then m ||| 8 else m
  let m2 := if key = "Control" then m1 ||| 4 else m1
  let m3 := if key = "Alt" then m2 ||| 2 else m2
  if key = "Meta" then m3 ||| 1 else m3

/-- Model of the `Keyboard.up` mutation of `this.modifiers`
(src/keyboard.ts lines 69-72): four independent `if`s, each ANDing with the
complement of one bit. -/
def keyUp (m : Nat) (key : String) : Nat :=
  let m1 := if key = "Shift" then m &&& (MASK32 ^^^ 8) else m
  let m2 := if key = "Control" then m1 &&& (MASK32 ^^^ 4) else m1
  let m3 := if key = "Alt" then m2 &&& (MASK32 ^^^ 2) else m2
  if key = "Meta" then m3 &&& (MASK32 ^^^ 1) else m3

/-- Claim C9, counterexample: The claim says `down(k)` then `up(k)` restores
the bitmask to its value before `down(k)` for every key.  Starting from a
held Shift (`down("Shift")` twice, then `up("Shift")`): the bitmask before
the second `down` is 8, but after the `down`;`up` pair it is 0 — `up`
clears the bit unconditionally instead of restoring it. -/
theorem keyboard_roundtrip_counterexample :
    keyUp (keyDown (keyDown 0 "Shift") "Shift") "Shift" ≠ keyDown 0 "Shift" := by
  decide

/-- Claim C9, amended: The modifier bitmask is mutated only by the four
named modifier keys (`down`/`up` on any other key leave it untouched);
`down` sets the key's bit and `up` clears it, so `down(k)` then `up(k)`
yields the pre-`down` value *with `k`'s bit cleared* — equal to the
pre-`down` value exactly when `k` was not already held.  States are the
reachable ones, `m < 16` (the four CDP modifier bits). -/
theorem keyboard_modifier_bitmask (m : Nat) (hm : m < 16) (key : String) :
    (modifierBit key = 0 → keyDown m key = m ∧ keyUp m key = m) ∧
    keyDown m key = m ||| modifierBit key ∧
    keyUp (keyDown m key) key = m &&& (15 ^^^ modifierBit key) ∧
    (m &&& modifierBit key = 0 → keyUp (keyDown m key) key = m) := by
  by_cases h1 : key = "Shift"
  · subst h1; interval_cases m <;> decide
  by_cases h2 : key = "Control"
  · subst h2; interval_cases m <;> decide
  by_cases h3 : key = "Alt"
  · subst h3; interval_cases m <;> decide
  by_cases h4 : key = "Meta"
  · subst h4; interval_cases m <;> decide
  have hb : modifierBit key = 0 := by simp [modifierBit, h1, h2, h3, h4]
  have hd : keyDown m key = m := by simp [keyDown, h1, h2, h3, h4]
  have hu : keyUp m key = m := by simp [keyUp, h1, h2, h3, h4]
  refine ⟨fun _ => ⟨hd, hu⟩, ?_, ?_, fun _ => by rw [hd, hu]⟩
  · rw [hd, hb]
    simp
  · rw [hd, hu, hb]
    have : (15 : Nat) ^^^ 0 = 15 := by decide
    rw [this]
    interval_cases m <;> decide

/-- Concrete instance of C9 (amended): from an empty bitmask, pressing and
releasing Control round-trips to 0; `down` on the non-modifier key `a`
leaves the mask untouched. -/
theorem keyboard_modifier_bitmask_witness :
    keyUp (keyDown 0 "Control") "Control" = 0 ∧ keyDown 3 "a" = 3 := by
  have h0 := keyboard_modifier_bitmask 0 (by decide) "Control"
  have h3 := keyboard_modifier_bitmask 3 (by decide) "a"
  exact ⟨h0.2.2.2 (by decide), (h3.1 (by decide)).1⟩

end KeyboardModel

/-- C2 helper shape: the deliveries `close` makes. -/
theorem close_spec (st : SessionState) :
    CDPSession.close st =
      ({ st with pending := [], listeners := [] },
       st.pending.map (fun i => .toCall i (.rejected "Connection closed"))) := rfl

/-- Claim C2: `close()` on a session with `K` pending calls rejects exactly
those `K` calls, each with the `Connection closed` reason, leaves zero
pending slots in the callbacks map, and clears every event subscription. -/
theorem close_rejects_all_pending (st : SessionState) :
    (CDPSession.close st).1.pending = [] ∧
    (CDPSession.close st).1.listeners = [] ∧
    (CDPSession.close st).2.length = st.pending.length ∧
    (∀ i ∈ st.pending,
      Delivery.toCall i (.rejected "Connection closed") ∈ (CDPSession.close st).2) ∧
    (∀ d ∈ (CDPSession.close st).2,
      ∃ i ∈ st.pending, d = Delivery.toCall i (.rejected "Connection closed")) := by
  refine ⟨rfl, rfl, by simp [CDPSession.close], ?_, ?_⟩
  · intro i hi
    simp only [CDPSession.close, List.mem_map]
    exact ⟨i, hi, rfl⟩
  · intro d hd
    simp only [CDPSession.close, List.mem_map] at hd
    obtain ⟨i, hi, rfl⟩ := hd
    exact ⟨i, hi, rfl⟩

end Thrall
